import Mathlib

set_option maxRecDepth 10000

/-!
Shallow embedding of `src/sinc_net_deepdream/deep_dream.py`.

The embedding covers the frame-batching, streaming-inference and aggregation
engine of `DeepDream.transform` (lines 148-211), the constructor
`DeepDream.__init__` (lines 71-90), and the module-level framing parameters.
The external neural feature extractor `self._dnn_net(self._cnn_net(..))` is
modelled as an abstract function `net` mapping a batch of frames to a list of
embedding rows, exactly as §4.3 of the design treats it.

Numeric model: a tensor entry is a `Val := Option ℚ`.  `some q` models a
finite floating-point value with exact arithmetic; `none` models a non-finite
result (NaN).  The only division in the pipeline divides a coordinate by the
L2 norm of its own row, and a zero norm forces the numerator to be zero as
well, so IEEE infinities cannot arise in the aggregated mean: every reachable
non-finite value is a NaN, which is what line 204's `torch.isnan` tests.
The square root inside the L2 norm is modelled by `Rat.sqrt`, which is exact
on perfect squares (all concrete inputs below are chosen with perfect-square
norms).
-/

namespace DeepDream

/-- Runtime errors (Python exceptions) that the modelled code can raise. -/
inductive Err where
  /-- `ZeroDivisionError` from `(L - window_length) / window_shift` at line 160
      when `window_shift = 0`. -/
  | zeroDivision
  /-- `RuntimeError` from `torch.zeros` with a negative dimension
      (line 161 with `number_of_chunks < 0`, line 164 with
      `number_of_frames < 0`). -/
  | negativeDim
  /-- `IndexError` from `signal_array[frame_count, :]` at line 174 when the
      preallocated buffer has zero rows (`number_of_chunks = 0`). -/
  | indexError
  /-- `RuntimeError` from a slice assignment whose right-hand side has a row
      count that neither matches the slice nor is 1 (lines 182 and 194). -/
  | shapeMismatch
  /-- `NameError` from reading `nan_sum` at line 206 when the loop body never
      ran (empty input sequence). -/
  | nameError
deriving DecidableEq

/-- A tensor entry: `some q` is a finite value, `none` a non-finite (NaN). -/
abbrev Val : Type := Option ℚ

/-- Addition with NaN propagation. -/
def vadd : Val → Val → Val
  | some a, some b => some (a + b)
  | _, _ => none

/-- Multiplication with NaN propagation. -/
def vmul : Val → Val → Val
  | some a, some b => some (a * b)
  | _, _ => none

/-- Division: division by zero and any operation on a NaN is non-finite.
    (A nonzero numerator over a zero denominator is an IEEE infinity, but in
    this pipeline the denominator is the L2 norm of the row containing the
    numerator, so a zero denominator forces a zero numerator.) -/
def vdiv : Val → Val → Val
  | some a, some b => if b = 0 then none else some (a / b)
  | _, _ => none

/-- Sum of a list of values, with NaN propagation. -/
def sumVal (l : List Val) : Val := l.foldr vadd (some 0)

/-- Squared L2 norm of one row (`vectors.norm(p=2, dim=1)` squared). -/
def vnormSq (r : List Val) : Val := sumVal (r.map (fun x => vmul x x))

/-- L2 norm of one row: square root of the sum of squares, NaN propagating. -/
def vnorm (r : List Val) : Val := (vnormSq r).map Rat.sqrt

/-- One row of `vectors / vectors.norm(p=2, dim=1).view(-1, 1)` (line 198):
    each entry of the row divided by the L2 norm of its own row. -/
def normRow (r : List Val) : List Val := r.map (fun x => vdiv x (vnorm r))

/-- `torch.mean(rows, dim=0)` for a `rows.length × D` tensor: column `j` is
    the sum of column `j` divided by the number of rows.  With zero rows this
    is NaN in every coordinate, as in torch. -/
def colMean (D : ℕ) (rows : List (List Val)) : List Val :=
  (List.range D).map
    (fun j => vdiv (sumVal (rows.map (fun r => r.getD j (some 0))))
      (some (rows.length : ℚ)))

/-- Line 198: `torch.mean(vectors / vectors.norm(p=2, dim=1).view(-1, 1), dim=0)`
    — normalize every row of the buffer by its own L2 norm, then take the
    element-wise mean over all rows. -/
def aggregate (D : ℕ) (rows : List (List Val)) : List Val :=
  colMean D (rows.map normRow)

/-- Line 204: `torch.sum(torch.isnan(predictions))`. -/
def nanCount (pred : List Val) : ℕ := pred.countP (fun v => v.isNone)

/-- The framing `while` loop of lines 173-177: starting offsets are collected
    at step `S` for as long as `beginning + F < L` holds **strictly**
    (`end_of_sample < signal.shape[0]` at line 173).  `fuel` bounds the
    number of iterations; with `S ≥ 1` at most `L` iterations can occur. -/
def startsFrom (L F S : ℕ) (b : ℕ) : ℕ → List ℕ
  | 0 => []
  | fuel + 1 => if b + F < L then b :: startsFrom L F S (b + S) fuel else []

/-- Starting offsets of the frames the loop at lines 173-177 extracts. -/
def extractedStarts (L F S : ℕ) : List ℕ := startsFrom L F S 0 L

/-- The frames the loop extracts: `signal[b : b + F]` for each start `b`
    (line 174). -/
def extractedFrames (w : List ℚ) (F S : ℕ) : List (List ℚ) :=
  (extractedStarts w.length F S).map (fun b => (w.drop b).take F)

/-- Line 160: `int((signal.shape[0] - window_length) / window_shift + 1)`.
    Exact value `(L - F)/S + 1 = (L - F + S)/S`, truncated toward zero by
    Python's `int`, which is `Int.tdiv`. -/
def pyNumFrames (L F S : ℕ) : ℤ := Int.tdiv ((L : ℤ) - (F : ℤ) + (S : ℤ)) (S : ℤ)

/-- The batches handed to the inference adapter: the flush at lines 179-190
    fires after every `C`-th extracted frame, so the full batches are the
    consecutive `C`-blocks of the extracted frame list; the flush at
    lines 192-195 passes the remaining `frames.length % C` frames (if any)
    as one final partial batch. -/
def netBatches (C : ℕ) (frames : List α) : List (List α) :=
  (List.range (frames.length / C)).map (fun i => (frames.drop (i * C)).take C) ++
    (if frames.length % C = 0 then []
     else [frames.drop ((frames.length / C) * C)])

/-- Torch slice assignment `vecs[lo : hi] = out` on a 2-D tensor: the slice
    bounds clamp to the number of rows; the assignment succeeds when the row
    counts agree, broadcasts when `out` is a single row, and raises a
    `RuntimeError` otherwise (lines 182 and 194). -/
def assignSlice (vecs : List (List Val)) (lo hi : ℕ) (out : List (List Val)) :
    Except Err (List (List Val)) :=
  let lo := min lo vecs.length
  let hi := min hi vecs.length
  let m := hi - lo
  if out.length = m then
    .ok (vecs.take lo ++ out ++ vecs.drop hi)
  else
    match out with
    | [e] => if 0 < m then .ok (vecs.take lo ++ List.replicate m e ++ vecs.drop hi)
             else .error .shapeMismatch
    | _ => .error .shapeMismatch

/-- Lines 161-195: the output buffer `vectors = torch.zeros(n, D)` is filled
    by one slice assignment `vectors[i*C : i*C + C] = net(batch i)` per full
    batch and, when `frames.length % C ≠ 0`, one final
    `vectors[f*C :] = net(partial batch)`.  Rows never written stay zero. -/
def buildVectors (net : List (List ℚ) → List (List Val)) (C D n : ℕ)
    (frames : List (List ℚ)) : Except Err (List (List Val)) := do
  let init : List (List Val) := List.replicate n (List.replicate D (some 0))
  let f := frames.length / C
  let vecs ← (List.range f).foldlM
    (fun vecs i => assignSlice vecs (i * C) (i * C + C)
      (net ((frames.drop (i * C)).take C))) init
  if frames.length % C = 0 then pure vecs
  else assignSlice vecs (f * C) n (net (frames.drop (f * C)))

/-- The body of the `for` loop of `DeepDream.transform` for one waveform
    (lines 152-204), up to and including the computation of `predictions`:

    * line 160 divides by `window_shift` (`ZeroDivisionError` when `S = 0`),
      then computes `number_of_frames`;
    * line 161 allocates `torch.zeros(number_of_chunks, F)` (`RuntimeError`
      when `C < 0`);
    * line 164 allocates `torch.zeros(number_of_frames, D)` (`RuntimeError`
      when `number_of_frames < 0`);
    * the loop of lines 173-195 extracts the frames and runs the batched
      inference into the buffer (an `IndexError` on the first frame when
      `C = 0`);
    * line 198 aggregates the buffer. -/
def processOne (net : List (List ℚ) → List (List Val)) (F S : ℕ) (C : ℤ)
    (D : ℕ) (w : List ℚ) : Except Err (List Val) :=
  let L := w.length
  if S = 0 then .error .zeroDivision
  else
    let n : ℤ := pyNumFrames L F S
    if C < 0 then .error .negativeDim
    else if n < 0 then .error .negativeDim
    else
      let starts := extractedStarts L F S
      if C = 0 ∧ starts ≠ [] then .error .indexError
      else do
        let vecs ← buildVectors net C.toNat D n.toNat (extractedFrames w F S)
        pure (aggregate D vecs)

/-- `DeepDream.transform` (lines 148-211).  The per-waveform loop body runs
    for every input pair, but the NaN check and the `output.append` of
    lines 206-210 sit **outside** the `for` loop, so they run once, on the
    loop variables of the final iteration; with an empty input they read the
    never-assigned `nan_sum` and raise a `NameError`. -/
def transform (net : List (List ℚ) → List (List Val)) (F S : ℕ) (C : ℤ)
    (D : ℕ) (xs : List (List ℚ × ℤ)) :
    Except Err (List (Option (List Val) × ℤ)) := do
  let preds ← xs.mapM (fun p => processOne net F S C D p.1)
  match preds.getLast?, xs.getLast? with
  | some pred, some last =>
      if 0 < nanCount pred then pure [(none, last.2)]
      else pure [(some pred, last.2)]
  | _, _ => .error .nameError

/-- The engine state assembled by `DeepDream.__init__` (lines 71-90): the
    constructor parameters it stores.  The loaded networks are the external
    collaborator and are represented by the abstract `net` argument of
    `transform`. -/
structure DeepDreamState where
  layerName : String
  numberOfChunks : ℤ
  useGpu : Bool
  verbose : Bool
deriving DecidableEq

/-- `DeepDream.__init__` (lines 71-90): stores `layer_name`,
    `number_of_chunks`, `use_gpu` and `verbose`, then loads the external
    model (lines 98-146, treated as the always-available collaborator).
    No constructor parameter is validated. -/
def deepDreamInit (layerName modelPath : String) (numberOfChunks : ℤ)
    (useGpu verbose : Bool) : Except Err DeepDreamState :=
  .ok { layerName := layerName, numberOfChunks := numberOfChunks,
        useGpu := useGpu, verbose := verbose }

/-- Concrete adapter: every frame maps to the 1-dimensional embedding `[1]`. -/
def netOne (b : List (List ℚ)) : List (List Val) :=
  b.map (fun _ => [some 1])

/-- Concrete adapter: every frame maps to the 1-dimensional embedding `[0]`
    (an all-zero, hence zero-norm, embedding). -/
def netZero (b : List (List ℚ)) : List (List Val) :=
  b.map (fun _ => [some 0])

/-- Concrete adapter with 2-dimensional embeddings of perfect-square norm,
    keyed on the first sample of the frame: `3 ↦ (3,4)` (norm 5),
    `5 ↦ (5,12)` (norm 13), anything else `↦ (8,15)` (norm 17). -/
def netPy (b : List (List ℚ)) : List (List Val) :=
  b.map (fun f =>
    if f.headD 0 = 3 then [some 3, some 4]
    else if f.headD 0 = 5 then [some 5, some 12]
    else [some 8, some 15])

/-! ### Helper lemmas -/

theorem vadd_left_comm (a b c : Val) : vadd a (vadd b c) = vadd b (vadd a c) := by
  cases a <;> cases b <;> cases c <;> simp [vadd] <;> ring

theorem sumVal_perm {l l' : List Val} (h : l.Perm l') : sumVal l = sumVal l' := by
  induction h with
  | nil => rfl
  | cons x _ ih => simpa [sumVal] using congrArg (vadd x) ih
  | swap x y l => exact vadd_left_comm y x (sumVal l)
  | trans _ _ ih1 ih2 => rw [ih1, ih2]

theorem colMean_perm (D : ℕ) {rows rows' : List (List Val)}
    (h : rows.Perm rows') : colMean D rows = colMean D rows' := by
  unfold colMean
  have hlen := h.length_eq
  congr 1
  funext j
  rw [hlen, sumVal_perm (h.map (fun r => r.getD j (some 0)))]

theorem join_range_chunks (l : List α) (C f : ℕ) (h : f * C ≤ l.length) :
    ((List.range f).map (fun i => (l.drop (i * C)).take C)).flatten =
      l.take (f * C) := by
  induction f with
  | zero => simp
  | succ g ih =>
    have hg : g * C ≤ l.length := by rw [Nat.succ_mul] at h; omega
    rw [List.range_succ, List.map_append, List.flatten_append, ih hg]
    simp only [List.map_cons, List.map_nil, List.flatten_cons, List.flatten_nil,
      List.append_nil]
    rw [Nat.succ_mul, List.take_add]

theorem netBatches_flatten (l : List α) (C : ℕ) :
    (netBatches C l).flatten = l := by
  unfold netBatches
  rw [List.flatten_append, join_range_chunks l C _ (Nat.div_mul_le_self _ _)]
  by_cases hr : l.length % C = 0
  · rw [if_pos hr]
    have hd := Nat.div_add_mod l.length C
    have hq : l.length / C * C = l.length := by rw [Nat.mul_comm]; omega
    rw [hq, List.take_length]
    simp
  · rw [if_neg hr]
    simp only [List.flatten_cons, List.flatten_nil, List.append_nil]
    exact List.take_append_drop _ l

theorem netBatches_length (l : List α) (C : ℕ) (hC : 0 < C) :
    (netBatches C l).length = (l.length + C - 1) / C := by
  unfold netBatches
  rw [List.length_append, List.length_map, List.length_range]
  have hd := Nat.div_add_mod l.length C
  have hlt : l.length % C < C := Nat.mod_lt _ hC
  by_cases hr : l.length % C = 0
  · rw [if_pos hr]
    have h1 : l.length + C - 1 = C * (l.length / C) + (C - 1) := by omega
    rw [h1, Nat.mul_add_div hC, Nat.div_eq_of_lt (show C - 1 < C by omega)]
    simp
  · rw [if_neg hr]
    have hmul : C * (l.length / C + 1) = C * (l.length / C) + C := by ring
    have h1 : l.length + C - 1 =
        C * (l.length / C + 1) + (l.length % C - 1) := by omega
    rw [h1, Nat.mul_add_div hC,
      Nat.div_eq_of_lt (show l.length % C - 1 < C by omega)]
    simp

theorem netBatches_full_size (l : List α) (C : ℕ) :
    ∀ b ∈ (netBatches C l).take (l.length / C), b.length = C := by
  intro b hb
  unfold netBatches at hb
  rw [List.take_left' (by simp)] at hb
  rcases List.mem_map.mp hb with ⟨i, hi, rfl⟩
  rw [List.mem_range] at hi
  have h2 : l.length / C * C ≤ l.length := Nat.div_mul_le_self _ _
  have h1 : (i + 1) * C ≤ l.length / C * C := Nat.mul_le_mul_right _ (by omega)
  rw [Nat.succ_mul] at h1
  simp only [List.length_take, List.length_drop]
  omega

theorem netBatches_last (l : List α) (C : ℕ) (hr : l.length % C ≠ 0) :
    (netBatches C l).getLast? = some (l.drop ((l.length / C) * C)) := by
  unfold netBatches
  rw [if_neg hr, List.getLast?_concat]

theorem drop_tail_length (l : List α) (C : ℕ) :
    (l.drop ((l.length / C) * C)).length = l.length % C := by
  have hd := Nat.div_add_mod l.length C
  rw [List.length_drop, Nat.mul_comm]
  omega

theorem transform_singleton (net : List (List ℚ) → List (List Val))
    (F S : ℕ) (C : ℤ) (D : ℕ) (w : List ℚ) (sr : ℤ) :
    transform net F S C D [(w, sr)] =
      match processOne net F S C D w with
      | .error e => .error e
      | .ok pred =>
          if 0 < nanCount pred then .ok [(none, sr)]
          else .ok [(some pred, sr)] := by
  cases h : processOne net F S C D w <;>
    simp [transform, List.mapM, List.mapM.loop, h, pure, Except.pure, Bind.bind,
      Except.bind]

theorem extractedStarts_eq_nil (L F S : ℕ) (h : L ≤ F) :
    extractedStarts L F S = [] := by
  unfold extractedStarts
  cases L with
  | zero => rfl
  | succ l =>
    simp only [startsFrom]
    rw [if_neg (by omega)]

theorem pyNumFrames_nonpos (L F S : ℕ) (hS : S ≠ 0) (h : L < F) :
    pyNumFrames L F S ≤ 0 := by
  unfold pyNumFrames
  have hS' : (0 : ℤ) < (S : ℤ) := by exact_mod_cast Nat.pos_of_ne_zero hS
  have hLF : (L : ℤ) - (F : ℤ) + (S : ℤ) < (S : ℤ) := by
    have : (L : ℤ) < (F : ℤ) := by exact_mod_cast h
    omega
  rcases le_or_lt 0 ((L : ℤ) - (F : ℤ) + (S : ℤ)) with h0 | h0
  · rw [Int.tdiv_eq_zero_of_lt h0 hLF]
  · have hneg := Int.neg_tdiv (-((L : ℤ) - (F : ℤ) + (S : ℤ))) (S : ℤ)
    rw [neg_neg] at hneg
    have hpos : 0 ≤ (-((L : ℤ) - (F : ℤ) + (S : ℤ))).tdiv (S : ℤ) :=
      Int.tdiv_nonneg (by omega) (by omega)
    omega

theorem processOne_short (net : List (List ℚ) → List (List Val))
    (F S : ℕ) (C : ℤ) (D : ℕ) (w : List ℚ) (h : w.length < F) :
    processOne net F S C D w = .error .zeroDivision ∨
      processOne net F S C D w = .error .negativeDim ∨
      processOne net F S C D w = .ok (List.replicate D none) := by
  unfold processOne
  by_cases hS : S = 0
  · left; simp [hS]
  · rcases lt_or_le C 0 with hC | hC
    · right; left; simp [hS, hC]
    · by_cases hn : pyNumFrames w.length F S < 0
      · right; left
        simp [hS, hn, not_lt.mpr hC]
      · right; right
        have hst : extractedStarts w.length F S = [] :=
          extractedStarts_eq_nil _ _ _ h.le
        have hnn : (pyNumFrames w.length F S).toNat = 0 :=
          Int.toNat_of_nonpos (pyNumFrames_nonpos _ _ _ hS h)
        simp [hS, hn, not_lt.mpr hC, hst, hnn, extractedFrames, buildVectors,
          aggregate, colMean, sumVal, vdiv, pure, Except.pure, Bind.bind,
          Except.bind]

theorem nanCount_replicate_none (D : ℕ) :
    nanCount (List.replicate D none) = D := by
  unfold nanCount
  induction D with
  | zero => rfl
  | succ d ih =>
    rw [List.replicate_succ, List.countP_cons]
    simp [ih]

/-! ### Claims -/

/-- C1.  Refuted as stated: on two valid waveforms (`F = 2`, `S = 2`,
    `C = 2`, `D = 1`, both waveforms `[1,1,1,1,1]` with two frames each and
    every embedding `[1]`), `transform` returns a single pair — the second
    waveform's embedding with the second sample rate — instead of one pair
    per input: the `output.append` of lines 206-210 sits outside the
    per-waveform loop, so only the final iteration's result is emitted. -/
theorem transform_two_waveforms_single_output :
    transform netOne 2 2 2 1 [([1, 1, 1, 1, 1], 11), ([1, 1, 1, 1, 1], 22)] =
      .ok [(some [some 1], 22)] := by
  with_unfolding_all rfl

/-- C2.  Refuted as stated: with `L = 200`, `F = 200`, `S = 80` the claimed
    frame count is `floor((L-F)/S) + 1 = 1` — and line 160 of the source
    computes exactly that — but the `while` loop at line 173 compares with
    strict `<`, so the frame `[0, 200)` ending exactly at `L` is never
    extracted.  Consequently a waveform holding exactly one frame's worth of
    samples (`F = S = 2`, `w = [1,1]`, `C = D = 1`) leaves its single buffer
    row zero, the aggregation divides `0/0` into NaN, and `transform`
    returns the invalid marker instead of the frame's embedding. -/
theorem framer_drops_boundary_frame :
    extractedStarts 200 200 80 = [] ∧ pyNumFrames 200 200 80 = 1 ∧
      transform netOne 2 2 1 1 [([1, 1], 7)] = .ok [(none, 7)] := by
  refine ⟨rfl, rfl, by with_unfolding_all rfl⟩

/-- C3.  Refuted as stated: the first waveform (`[0]`, shorter than
    `F = 2`) aggregates to an all-NaN mean, but because the NaN check and
    `output.append` of lines 206-210 sit outside the per-waveform loop, no
    invalid-marker pair for it is ever emitted; the output holds only the
    second waveform's result.  The claim requires the output
    `[(none, 11), (vector, 22)]`. -/
theorem nan_marker_only_for_last_waveform :
    transform netOne 2 2 2 1 [([0], 11), ([1, 1, 1, 1, 1], 22)] =
      .ok [(some [some 1], 22)] := by
  with_unfolding_all rfl

/-- C4.  Refuted as stated: with `F = 1`, `S = 1`, `C = 2`, `D = 2` and
    `w = [3, 5, 8, 9]` the loop extracts 3 frames but allocates
    `number_of_frames = 4` buffer rows; the final partial batch holds one
    embedding, which the slice assignment of line 194 broadcasts into the
    two remaining rows.  The returned vector is therefore the mean over
    `[e1, e2, e3, e3]` — not the element-wise mean of the 3 per-frame
    normalized embeddings `aggregate 2 [e1, e2, e3]` demanded by the
    claim. -/
theorem aggregation_duplicates_last_embedding :
    transform netPy 1 1 2 2 [([3, 5, 8, 9], 7)] =
        .ok [(some [some (532/1105 : ℚ), some (1927/2210 : ℚ)], 7)] ∧
      aggregate 2 [[some 3, some 4], [some 5, some 12], [some 8, some 15]] =
        [some (536/1105 : ℚ), some (2879/3315 : ℚ)] ∧
      [some (532/1105 : ℚ), some (1927/2210 : ℚ)] ≠
        [some (536/1105 : ℚ), some (2879/3315 : ℚ)] := by
  refine ⟨by with_unfolding_all rfl, by with_unfolding_all rfl,
    by with_unfolding_all decide⟩

/-- C7.  Refuted as stated: an all-zero waveform of length `3 ≥ F = 1` with
    `S = 1`, `C = 3`, whose frame embeddings are all the zero (zero-norm)
    vector, makes `transform` raise a shape-mismatch `RuntimeError` instead
    of returning the invalid marker: the strict `<` of line 173 extracts 2
    frames while `number_of_frames = 3` rows are allocated, so the partial
    flush at line 194 assigns 2 embedding rows into a 3-row slice. -/
theorem zero_norm_crash :
    transform netZero 1 1 3 1 [([0, 0, 0], 7)] = .error .shapeMismatch := by
  rfl

/-- C10.  On an empty input sequence, `transform` never assigns the
    loop-body variable `nan_sum`, so the health check at line 206 reads an
    unbound variable and the call raises a `NameError` instead of returning
    an empty result list. -/
theorem transform_empty_input_name_error
    (net : List (List ℚ) → List (List Val)) (F S : ℕ) (C : ℤ) (D : ℕ) :
    transform net F S C D [] = .error .nameError := by
  rfl

/-- C8.  Refuted as stated: constructing the engine with
    `number_of_chunks = 0` (an invalid batch capacity) succeeds —
    `DeepDream.__init__` stores its parameters without validating any of
    them, so no configuration error is raised at construction time. -/
theorem init_accepts_nonpositive_chunks :
    deepDreamInit "first" "model" 0 false false =
      .ok { layerName := "first", numberOfChunks := 0,
            useGpu := false, verbose := false } := by
  rfl

/-- C8, amended.  `DeepDream.__init__` performs no validation: construction
    succeeds for every `number_of_chunks`, including every value `≤ 0`, and
    an invalid batch capacity surfaces only later, inside `transform` — as
    an `IndexError` on the first extracted frame when `number_of_chunks = 0`
    and as a negative-dimension `RuntimeError` from `torch.zeros` when
    `number_of_chunks < 0`. -/
theorem init_defers_validation :
    (∀ c : ℤ, c ≤ 0 →
      deepDreamInit "first" "model" c false false =
        .ok { layerName := "first", numberOfChunks := c,
              useGpu := false, verbose := false }) ∧
      transform netZero 1 1 0 1 [([0, 0], 7)] = .error .indexError ∧
      transform netZero 1 1 (-1) 1 [([0, 0], 7)] = .error .negativeDim := by
  refine ⟨fun c _ => rfl, rfl, rfl⟩

/-- Witness for `init_defers_validation`: the hypothesis `c ≤ 0` is
    satisfied at `c = -1`. -/
theorem init_defers_validation_witness :
    deepDreamInit "first" "model" (-1) false false =
      .ok { layerName := "first", numberOfChunks := -1,
            useGpu := false, verbose := false } :=
  init_defers_validation.1 (-1) (by decide)

/-- C5.  For every waveform whose extracted frame list is nonempty and every
    batch capacity `C > 0`, the batches handed to the inference adapter
    (`netBatches`, which `buildVectors` applies `net` to batch by batch) are
    exactly: `ceil(N/C)` batches whose concatenation is the frame list in
    order (so no frame is padded, duplicated or dropped), the first
    `floor(N/C)` of which hold exactly `C` frames, and — when `N mod C ≠ 0` —
    a final partial batch holding exactly the remaining `N mod C` frames.
    The concrete scenario of the claim also holds: `frame_length = 200`,
    `frame_shift = 80`, `batch_capacity = 4` and a 700-sample waveform give
    7 frames split into batches of sizes `[4, 3]`. -/
theorem batcher_contract :
    (∀ (w : List ℚ) (F S C : ℕ), 0 < C →
      1 ≤ (extractedFrames w F S).length →
      ((netBatches C (extractedFrames w F S)).flatten = extractedFrames w F S ∧
        (netBatches C (extractedFrames w F S)).length =
          ((extractedFrames w F S).length + C - 1) / C ∧
        (∀ b ∈ (netBatches C (extractedFrames w F S)).take
            ((extractedFrames w F S).length / C), b.length = C) ∧
        ((extractedFrames w F S).length % C ≠ 0 →
          (netBatches C (extractedFrames w F S)).getLast? =
            some ((extractedFrames w F S).drop
              (((extractedFrames w F S).length / C) * C)) ∧
          ((extractedFrames w F S).drop
              (((extractedFrames w F S).length / C) * C)).length =
            (extractedFrames w F S).length % C))) ∧
      (extractedFrames (List.replicate 700 (0 : ℚ)) 200 80).length = 7 ∧
      (netBatches 4 (extractedFrames (List.replicate 700 (0 : ℚ)) 200 80)).map
        List.length = [4, 3] := by
  refine ⟨fun w F S C hC _ =>
    ⟨netBatches_flatten _ _, netBatches_length _ _ hC,
      netBatches_full_size _ _,
      fun hr => ⟨netBatches_last _ _ hr, drop_tail_length _ _⟩⟩,
    by decide, by decide⟩

/-- Witness for `batcher_contract`: its hypotheses hold at the claim's own
    scenario — `C = 4 > 0` and the 700-sample waveform has `7 ≥ 1` extracted
    frames. -/
theorem batcher_contract_witness :
    (netBatches 4 (extractedFrames (List.replicate 700 (0 : ℚ)) 200 80)).flatten =
        extractedFrames (List.replicate 700 (0 : ℚ)) 200 80 ∧
      (netBatches 4 (extractedFrames (List.replicate 700 (0 : ℚ)) 200 80)).length =
        ((extractedFrames (List.replicate 700 (0 : ℚ)) 200 80).length + 4 - 1) / 4 ∧
      (∀ b ∈ (netBatches 4 (extractedFrames (List.replicate 700 (0 : ℚ)) 200 80)).take
          ((extractedFrames (List.replicate 700 (0 : ℚ)) 200 80).length / 4),
        b.length = 4) ∧
      ((extractedFrames (List.replicate 700 (0 : ℚ)) 200 80).length % 4 ≠ 0 →
        (netBatches 4 (extractedFrames (List.replicate 700 (0 : ℚ)) 200 80)).getLast? =
          some ((extractedFrames (List.replicate 700 (0 : ℚ)) 200 80).drop
            (((extractedFrames (List.replicate 700 (0 : ℚ)) 200 80).length / 4) * 4)) ∧
        ((extractedFrames (List.replicate 700 (0 : ℚ)) 200 80).drop
            (((extractedFrames (List.replicate 700 (0 : ℚ)) 200 80).length / 4) * 4)).length =
          (extractedFrames (List.replicate 700 (0 : ℚ)) 200 80).length % 4) :=
  batcher_contract.1 (List.replicate 700 (0 : ℚ)) 200 80 4 (by decide) (by decide)

/-- C6.  For every waveform shorter than one frame (`L < F`, embedding
    dimension positive), processing that waveform alone yields an explicit
    outcome — a raised error or the invalid-marker result — and never a
    numeric vector: zero frames are extracted, the aggregation divides by the
    zero row count, every coordinate of the mean is NaN, and the health check
    turns the result into the invalid marker. -/
theorem short_waveform_explicit_outcome (net : List (List ℚ) → List (List Val))
    (F S : ℕ) (C : ℤ) (D : ℕ) (w : List ℚ) (sr : ℤ)
    (hw : w.length < F) (hD : 0 < D) :
    (∃ e, transform net F S C D [(w, sr)] = .error e) ∨
      transform net F S C D [(w, sr)] = .ok [(none, sr)] := by
  rcases processOne_short net F S C D w hw with h | h | h
  · exact .inl ⟨_, by rw [transform_singleton, h]⟩
  · exact .inl ⟨_, by rw [transform_singleton, h]⟩
  · right
    rw [transform_singleton, h]
    simp only [nanCount_replicate_none]
    rw [if_pos hD]

/-- Witness for `short_waveform_explicit_outcome`: the waveform `[1]` of
    length `1 < F = 2` with `S = 1`, `C = 1`, `D = 1`. -/
theorem short_waveform_explicit_outcome_witness :
    (∃ e, transform netOne 2 1 1 1 [([1], 5)] = .error e) ∨
      transform netOne 2 1 1 1 [([1], 5)] = .ok [(none, 5)] :=
  short_waveform_explicit_outcome netOne 2 1 1 1 [1] 5 (by decide) (by decide)

/-- C9.  The aggregation of line 198 — per-frame L2 normalization followed by
    the element-wise mean — is invariant under permutation of the embedding
    sequence: each row is normalized by its own norm, and the column sums and
    the row count are permutation invariant. -/
theorem aggregate_perm_invariant (D : ℕ) (rows rows' : List (List Val))
    (hperm : rows.Perm rows') (hN : 1 ≤ rows.length) :
    aggregate D rows = aggregate D rows' := by
  unfold aggregate
  exact colMean_perm D (hperm.map normRow)

/-- Witness for `aggregate_perm_invariant`: swapping two concrete embedding
    rows of dimension 2 leaves the aggregate unchanged. -/
theorem aggregate_perm_invariant_witness :
    aggregate 2 [[some 3, some 4], [some 0, some 1]] =
      aggregate 2 [[some 0, some 1], [some 3, some 4]] :=
  aggregate_perm_invariant 2 _ _ (List.Perm.swap _ _ _) (by decide)

end DeepDream
